import Mathlib

set_option maxRecDepth 8192

/-!
Verification of the four-sided orderbook unification core of the
alpha-mcp repository (the `get_orderbook` tool handler, `src/unnamed/part_000`
lines 290-331).  The handler receives a raw book with four sides
(`book.yes.bids`, `book.yes.asks`, `book.no.bids`, `book.no.asks`), converts
every entry to a unified YES-denominated entry (`toUnified`), merges YES asks
with complemented NO bids into `asks`, YES bids with complemented NO asks into
`bids`, sorts both with JavaScript `Array.prototype.sort` (stable since
ES2019) on `priceRaw`, computes the spread from the heads of the two sorted
arrays, and counts the raw orders.

Numbers: all prices and quantities are integer micro-units held in JS doubles;
every arithmetic operation performed by the code on them (integer subtraction
`1_000_000 - e.price`, comparator subtraction, equality with null) is exact
for integers of this magnitude, so they are embedded as `Int`.

Display strings: the handler renders `price`, `shares`, `total` and `spread`
with `Number.prototype.toFixed(2)` applied to double-precision intermediates.
The embedding models this bit-for-bit: every double is carried as the exact
rational it denotes, each arithmetic step (division by a constant,
multiplication) is the correctly rounded IEEE binary64 operation (`flRat`,
round to nearest, ties to even, computed exactly on rationals), and
`toFixed2` follows the ECMAScript algorithm — the sign is split off first
(so a negative value rounding to zero still prints "-0.00") and the
magnitude picks the integer of hundredths nearest to the double's exact
value, ties to the larger.  Exponent extremes (overflow, subnormals, the
10^21 switch of `toFixed` to exponential notation) are outside the
magnitudes this handler manipulates and are not modelled, matching the
embedding of JS integer micro-units as `Int`.
-/

/-- RawEntry mirrors the handler's `RawEntry` type
(`{ price: number; quantity: number; escrowAppId: number; owner: string }`),
one resting order of one side of the raw book. -/
structure RawEntry where
  price : Int
  quantity : Int
  escrowAppId : Int
  owner : String
deriving DecidableEq, Repr

/-- Side groups the two arrays of one outcome token, as in `book.yes.bids`,
`book.yes.asks` and the `no` counterparts. -/
structure Side where
  bids : List RawEntry
  asks : List RawEntry
deriving DecidableEq, Repr

/-- RawBook is the structure returned by `client.getOrderbook`: four ordered
sequences of raw entries, no sortedness or uniqueness assumed. -/
structure RawBook where
  yes : Side
  no : Side
deriving DecidableEq, Repr

/-- UnifiedEntry mirrors the handler's `UnifiedEntry` type
(`{ price: string; priceRaw: number; shares: string; total: string;
escrowAppId: number; owner: string; source: string }`).  Note that the only
machine-number field is `priceRaw`; quantity information leaves the handler
solely through the formatted `shares` and `total` strings. -/
structure UnifiedEntry where
  price : String
  priceRaw : Int
  shares : String
  total : String
  escrowAppId : Int
  owner : String
  source : String
deriving DecidableEq, Repr

/-- UnifiedView is the `unified` component of the handler's result:
`{ asks, bids, spread }`, with `spread` a display string (`"N/A"` sentinel
when a side is empty). -/
structure UnifiedView where
  asks : List UnifiedEntry
  bids : List UnifiedEntry
  spread : String
deriving DecidableEq, Repr

/-- OrderbookResult is the handler's `result` object:
`{ unified: { asks, bids, spread }, totalOrders }`. -/
structure OrderbookResult where
  unified : UnifiedView
  totalOrders : Nat
deriving DecidableEq, Repr

/-- log2Fuel fuel n computes floor (log2 n) by repeated halving with
explicit fuel, written directly with `Nat.rec` so that a concrete call
reduces lazily in about log2 n steps (the recursive branch is forced only
while n exceeds 1). -/
def log2Fuel (fuel : Nat) : Nat → Nat :=
  Nat.rec (motive := fun _ => Nat → Nat)
    (fun _ => 0)
    (fun _ ih n => if n ≤ 1 then 0 else ih (n / 2) + 1)
    fuel

/-- floorLog2 n is floor (log2 n) for n ≥ 1 (n halves to 1 within n steps,
so n is enough fuel). -/
def floorLog2 (n : Nat) : Nat :=
  log2Fuel n n

/-- rnePos a b rounds the positive rational a / b (b > 0) to the nearest
integer, ties to the even integer — the binary64 "round to nearest, ties to
even" applied to a scaled significand. -/
def rnePos (a b : Nat) : Nat :=
  let q := a / b
  let r := a % b
  if 2 * r < b then q
  else if b < 2 * r then q + 1
  else if q % 2 = 0 then q else q + 1

/-- twoPowLE num den k decides 2 ^ k ≤ num / den for a positive rational. -/
def twoPowLE (num den : Nat) (k : Int) : Bool :=
  if 0 ≤ k then den * 2 ^ k.toNat ≤ num else den ≤ num * 2 ^ (-k).toNat

/-- flPos num den is the IEEE binary64 double nearest to the positive
rational num / den, returned as the exact rational it denotes: with
k = floor (log2 (num / den)) the rational is scaled by 2 ^ (52 - k) into
the significand range [2^52, 2^53) and rounded to nearest, ties to even
(a round-up to 2^53 still denotes an exact double).  The exponent is
unrestricted: no overflow or subnormal handling, which coincides with IEEE
binary64 throughout the normal range the handler's magnitudes inhabit. -/
def flPos (num den : Nat) : Nat × Nat :=
  let k0 : Int := (floorLog2 num : Int) - (floorLog2 den : Int)
  let k : Int := if twoPowLE num den k0 then k0 else k0 - 1
  let s : Int := 52 - k
  if 0 ≤ s then (rnePos (num * 2 ^ s.toNat) den, 2 ^ s.toNat)
  else (rnePos num (den * 2 ^ (-s).toNat) * 2 ^ (-s).toNat, 1)

/-- flRat num den is the binary64 rounding of the rational num / den
(den > 0), as an exact rational with nonnegative-power-of-two denominator;
IEEE rounding is symmetric in sign.  Division of a double by an exact
constant and multiplication of two doubles are correctly rounded, so every
double the handler computes is `flRat` of the exact rational of the
operation. -/
def flRat (num : Int) (den : Nat) : Int × Nat :=
  if num = 0 then (0, 1)
  else if 0 < num then
    let r := flPos num.toNat den
    ((r.1 : Int), r.2)
  else
    let r := flPos (-num).toNat den
    (-(r.1 : Int), r.2)

/-- jsMul a b is the exact value of the binary64 product of the doubles a
and b (given as exact rationals): the correctly rounded exact product. -/
def jsMul (a b : Int × Nat) : Int × Nat :=
  flRat (a.1 * b.1) (a.2 * b.2)

/-- padHundredths renders a nonnegative count of hundredths with two
fraction digits, as `toFixed(2)` prints a nonnegative value. -/
def padHundredths (h : Nat) : String :=
  toString (h / 100) ++ "." ++ (if h % 100 < 10 then "0" else "") ++ toString (h % 100)

/-- toFixed2 is `Number.prototype.toFixed(2)` on a double given as the
exact rational v: per the ECMAScript algorithm the sign is split off first
(a negative value whose magnitude rounds to zero prints "-0.00"), then the
integer n with n / 100 nearest to the magnitude is chosen, ties to the
larger n — computed exactly as floor (100·|v| + 1/2). -/
def toFixed2 (v : Int × Nat) : String :=
  if v.1 < 0 then "-" ++ padHundredths ((200 * (-v.1).toNat + v.2) / (2 * v.2))
  else padHundredths ((200 * v.1.toNat + v.2) / (2 * v.2))

/-- toUnified embeds the handler's `toUnified` (lines 293-306).  The source
takes an optional `priceOverride` and computes `p = priceOverride ?? e.price`
(nullish coalescing, so an override of 0 is used, not skipped); here the
option is passed explicitly.  The doubles `priceCents = p / 1_000_000` and
`shares = e.quantity / 1_000_000` are each one correctly rounded division;
`price` renders the double `priceCents * 100` with `toFixed(2)` plus the
cent sign, `shares` renders the shares double, and `total` renders the
double `priceCents * shares` prefixed with a dollar sign. -/
def toUnified (e : RawEntry) (src : String) (priceOverride : Option Int) : UnifiedEntry :=
  let p : Int := priceOverride.getD e.price
  let priceCents : Int × Nat := flRat p 1000000
  let sharesD : Int × Nat := flRat e.quantity 1000000
  { price := toFixed2 (jsMul priceCents (100, 1)) ++ "¢"
    priceRaw := p
    shares := toFixed2 sharesD
    total := "$" ++ toFixed2 (jsMul priceCents sharesD)
    escrowAppId := e.escrowAppId
    owner := e.owner
    source := src }

/-- askCandidates embeds the array literal of line 308-310 before the `.sort`
call: YES asks passed through, NO bids complemented to `1_000_000 - price`. -/
def askCandidates (book : RawBook) : List UnifiedEntry :=
  book.yes.asks.map (fun e => toUnified e ("YES ask") none) ++
    book.no.bids.map (fun e => toUnified e ("NO bid (= YES ask)") (some (1000000 - e.price)))

/-- bidCandidates embeds the array literal of line 313-315: YES bids passed
through, NO asks complemented. -/
def bidCandidates (book : RawBook) : List UnifiedEntry :=
  book.yes.bids.map (fun e => toUnified e ("YES bid") none) ++
    book.no.asks.map (fun e => toUnified e ("NO ask (= YES bid)") (some (1000000 - e.price)))

/-- askLE is the total preorder induced by the ask comparator
`(a, b) => a.priceRaw - b.priceRaw`: the stable JS sort places `a` no later
than `b` exactly when the comparator is nonpositive, i.e. when
`a.priceRaw ≤ b.priceRaw` (the subtraction of integer doubles is exact). -/
def askLE (a b : UnifiedEntry) : Bool :=
  a.priceRaw ≤ b.priceRaw

/-- bidLE is the total preorder induced by the bid comparator
`(a, b) => b.priceRaw - a.priceRaw`, i.e. descending `priceRaw`. -/
def bidLE (a b : UnifiedEntry) : Bool :=
  b.priceRaw ≤ a.priceRaw

/-- unifiedAsks embeds the `asks` constant (lines 308-311):
`Array.prototype.sort` is required to be stable since ES2019, and on a total
preorder a stable sort is observationally `List.mergeSort`. -/
def unifiedAsks (book : RawBook) : List UnifiedEntry :=
  (askCandidates book).mergeSort askLE

/-- unifiedBids embeds the `bids` constant (lines 313-316). -/
def unifiedBids (book : RawBook) : List UnifiedEntry :=
  (bidCandidates book).mergeSort bidLE

/-- bestAskOpt embeds line 318,
`asks.length > 0 ? asks[0].priceRaw : null`, with `null` as `none`. -/
def bestAskOpt (book : RawBook) : Option Int :=
  (unifiedAsks book).head?.map UnifiedEntry.priceRaw

/-- bestBidOpt embeds line 319. -/
def bestBidOpt (book : RawBook) : Option Int :=
  (unifiedBids book).head?.map UnifiedEntry.priceRaw

/-- spreadMicro is the exact integer value `bestAsk - bestBid` (micro-units)
that line 321 computes before dividing by 10_000 and formatting, available
when both sides are nonempty (`bestAsk != null && bestBid != null`). -/
def spreadMicro (book : RawBook) : Option Int :=
  match bestAskOpt book, bestBidOpt book with
  | some a, some b => some (a - b)
  | _, _ => none

/-- spreadStrOf embeds lines 318-322 as a function of the two sorted arrays:
the best of each side is its head when nonempty (`null` otherwise), and the
spread is the string `((bestAsk - bestBid) / 10_000).toFixed(2) + "¢"` —
the integer difference is exact in doubles, the division by 10,000 is one
correctly rounded binary64 operation, and `toFixed(2)` renders the
resulting double — when both bests exist, otherwise the sentinel
`"N/A"`. -/
def spreadStrOf (asks bids : List UnifiedEntry) : String :=
  match asks.head?.map UnifiedEntry.priceRaw, bids.head?.map UnifiedEntry.priceRaw with
  | some a, some b => toFixed2 (flRat (a - b) 10000) ++ "¢"
  | _, _ => "N/A"

/-- spreadStr is the spread string of the two unified sides of a book. -/
def spreadStr (book : RawBook) : String :=
  spreadStrOf (unifiedAsks book) (unifiedBids book)

/-- get_orderbook embeds the whole unification body of the handler
(lines 308-329): the sorted unified sides, the spread string and the raw
order count `book.yes.bids.length + book.yes.asks.length +
book.no.bids.length + book.no.asks.length` (line 324). -/
def get_orderbook (book : RawBook) : OrderbookResult :=
  { unified :=
      { asks := unifiedAsks book
        bids := unifiedBids book
        spread := spreadStr book }
    totalOrders :=
      book.yes.bids.length + book.yes.asks.length +
        book.no.bids.length + book.no.asks.length }

/-!
Heap-level model for the frame property.  The handler's only in-place array
operation is `Array.prototype.sort`, and its receiver is in both cases the
freshly allocated spread-concatenation `[...map, ...map]`; `Array.prototype.map`
and array spread allocate new arrays, `toUnified` returns a fresh object
literal, and no statement assigns to the input book, its four side arrays or
any field of a raw entry.  The model makes this checkable: arrays live in an
addressed store, allocation writes only to a fresh address, the in-place sort
rewrites only its receiver address, and the theorem shows the raw side of the
store is untouched while the produced result coincides with the pure
`get_orderbook`.
-/

/-- JSHeap is an addressed store of JS arrays: `rawArr` holds raw-entry
arrays (the input book's four sides live at four such addresses), `uniArr`
holds unified-entry arrays, and `nextAddr` is the next fresh address used by
an allocation. -/
structure JSHeap where
  rawArr : Nat → List RawEntry
  uniArr : Nat → List UnifiedEntry
  nextAddr : Nat

/-- BookRef names the four store addresses holding `book.yes.bids`,
`book.yes.asks`, `book.no.bids`, `book.no.asks`. -/
structure BookRef where
  yesBidsA : Nat
  yesAsksA : Nat
  noBidsA : Nat
  noAsksA : Nat

/-- readBook dereferences the four side addresses of the input book. -/
def readBook (h : JSHeap) (r : BookRef) : RawBook :=
  { yes := { bids := h.rawArr r.yesBidsA, asks := h.rawArr r.yesAsksA }
    no := { bids := h.rawArr r.noBidsA, asks := h.rawArr r.noAsksA } }

/-- allocUni models allocation of a fresh unified-entry array (the evaluated
array literal `[...map, ...map]`): the contents are written at `nextAddr`
and the raw side of the store is untouched. -/
def allocUni (h : JSHeap) (l : List UnifiedEntry) : JSHeap :=
  { rawArr := h.rawArr
    uniArr := fun a => if a = h.nextAddr then l else h.uniArr a
    nextAddr := h.nextAddr + 1 }

/-- sortUniAt models the in-place `.sort(cmp)` call on the array at address
`a`: only that address is rewritten, with the stable sort of its previous
contents. -/
def sortUniAt (h : JSHeap) (a : Nat) (le : UnifiedEntry → UnifiedEntry → Bool) : JSHeap :=
  { rawArr := h.rawArr
    uniArr := fun x => if x = a then (h.uniArr a).mergeSort le else h.uniArr x
    nextAddr := h.nextAddr }

/-- get_orderbookH is the heap-level rendition of the handler body
(lines 308-329): build the ask candidates from the current store, allocate
them, sort in place at the fresh address, likewise for the bids, then read
the two sorted arrays back and assemble the result, reading the four side
lengths from the final store. -/
def get_orderbookH (h : JSHeap) (r : BookRef) : OrderbookResult × JSHeap :=
  let aAddr := h.nextAddr
  let h1 := allocUni h (askCandidates (readBook h r))
  let h2 := sortUniAt h1 aAddr askLE
  let bAddr := h2.nextAddr
  let h3 := allocUni h2 (bidCandidates (readBook h2 r))
  let h4 := sortUniAt h3 bAddr bidLE
  let asks := h4.uniArr aAddr
  let bids := h4.uniArr bAddr
  let bk := readBook h4 r
  ({ unified := { asks := asks, bids := bids, spread := spreadStrOf asks bids }
     totalOrders :=
       bk.yes.bids.length + bk.yes.asks.length + bk.no.bids.length + bk.no.asks.length },
   h4)

/-!
Concrete books used by witnesses and counterexamples.
-/

/-- emptyBook has all four sides empty. -/
def emptyBook : RawBook :=
  { yes := { bids := [], asks := [] }, no := { bids := [], asks := [] } }

/-- eNB is a NO bid resting at the lower boundary price 0. -/
def eNB : RawEntry :=
  { price := 0, quantity := 1000000, escrowAppId := 7, owner := "N" }

/-- eNA is a NO ask resting at the upper boundary price 1,000,000. -/
def eNA : RawEntry :=
  { price := 1000000, quantity := 500000, escrowAppId := 8, owner := "M" }

/-- bookBoundary carries one boundary-priced NO bid and one boundary-priced
NO ask and nothing else. -/
def bookBoundary : RawBook :=
  { yes := { bids := [], asks := [] }, no := { bids := [eNB], asks := [eNA] } }

/-- eYA is a plain YES ask. -/
def eYA : RawEntry :=
  { price := 600000, quantity := 1000000, escrowAppId := 1, owner := "A" }

/-- eYB is a plain YES bid. -/
def eYB : RawEntry :=
  { price := 480000, quantity := 1000000, escrowAppId := 3, owner := "C" }

/-- eNB2 is the NO bid of the worked example of the spec (price 350,000,
complementing to a YES ask at 650,000). -/
def eNB2 : RawEntry :=
  { price := 350000, quantity := 2000000, escrowAppId := 2, owner := "B" }

/-- exBook is the worked example of the spec: one YES ask at 600,000, one NO
bid at 350,000, one YES bid at 480,000, no NO asks. -/
def exBook : RawBook :=
  { yes := { bids := [eYB], asks := [eYA] }, no := { bids := [eNB2], asks := [] } }

/-- eQa is a YES ask of quantity 2,100,000 micro-shares. -/
def eQa : RawEntry :=
  { price := 500000, quantity := 2100000, escrowAppId := 11, owner := "Q" }

/-- eQb differs from eQa only in the quantity, 2,104,000 micro-shares: both
quantities round to the same displayed hundredths of a share, and the
products with the price round to the same displayed total. -/
def eQb : RawEntry :=
  { price := 500000, quantity := 2104000, escrowAppId := 11, owner := "Q" }

/-- bookQa carries only the YES ask eQa. -/
def bookQa : RawBook :=
  { yes := { bids := [], asks := [eQa] }, no := { bids := [], asks := [] } }

/-- bookQb carries only the YES ask eQb. -/
def bookQb : RawBook :=
  { yes := { bids := [], asks := [eQb] }, no := { bids := [], asks := [] } }

/-- eT1 and eT2 are two YES asks at the same price with different owners,
exercising the tie-break. -/
def eT1 : RawEntry :=
  { price := 420000, quantity := 1000000, escrowAppId := 21, owner := "T1" }

/-- eT2 is the second equal-priced YES ask. -/
def eT2 : RawEntry :=
  { price := 420000, quantity := 3000000, escrowAppId := 22, owner := "T2" }

/-- bookTie holds the two equal-priced YES asks in input order eT1, eT2. -/
def bookTie : RawBook :=
  { yes := { bids := [], asks := [eT1, eT2] }, no := { bids := [], asks := [] } }

/-- bookOneSided populates only yesAsks. -/
def bookOneSided : RawBook :=
  { yes := { bids := [], asks := [eYA, eT1] }, no := { bids := [], asks := [] } }

/-- eCB is a YES bid at 600,000, above the ask eCA. -/
def eCB : RawEntry :=
  { price := 600000, quantity := 1000000, escrowAppId := 31, owner := "X" }

/-- eCA is a YES ask at 400,000. -/
def eCA : RawEntry :=
  { price := 400000, quantity := 1000000, escrowAppId := 32, owner := "Y" }

/-- bookCrossed has its best bid above its best ask: the YES ask eCA at
400,000 and the YES bid eCB at 600,000. -/
def bookCrossed : RawBook :=
  { yes := { bids := [eCB], asks := [eCA] }, no := { bids := [], asks := [] } }

/-!
Helper lemmas shared by the claim theorems.
-/

/-- The ask comparator is transitive. -/
theorem askLE_trans (a b c : UnifiedEntry) :
    askLE a b = true → askLE b c = true → askLE a c = true := by
  simp only [askLE, decide_eq_true_eq]
  omega

/-- The ask comparator is total. -/
theorem askLE_total (a b : UnifiedEntry) : (askLE a b || askLE b a) = true := by
  simp only [askLE, Bool.or_eq_true, decide_eq_true_eq]
  omega

/-- The bid comparator is transitive. -/
theorem bidLE_trans (a b c : UnifiedEntry) :
    bidLE a b = true → bidLE b c = true → bidLE a c = true := by
  simp only [bidLE, decide_eq_true_eq]
  omega

/-- The bid comparator is total. -/
theorem bidLE_total (a b : UnifiedEntry) : (bidLE a b || bidLE b a) = true := by
  simp only [bidLE, Bool.or_eq_true, decide_eq_true_eq]
  omega

/-- Sorting the ask candidates permutes them. -/
theorem unifiedAsks_perm (book : RawBook) :
    (unifiedAsks book).Perm (askCandidates book) :=
  List.mergeSort_perm _ _

/-- Sorting the bid candidates permutes them. -/
theorem unifiedBids_perm (book : RawBook) :
    (unifiedBids book).Perm (bidCandidates book) :=
  List.mergeSort_perm _ _

/-- Membership in the sorted asks coincides with membership in the
candidates. -/
theorem mem_unifiedAsks {book : RawBook} {u : UnifiedEntry} :
    u ∈ unifiedAsks book ↔ u ∈ askCandidates book :=
  (unifiedAsks_perm book).mem_iff

/-- Membership in the sorted bids coincides with membership in the
candidates. -/
theorem mem_unifiedBids {book : RawBook} {u : UnifiedEntry} :
    u ∈ unifiedBids book ↔ u ∈ bidCandidates book :=
  (unifiedBids_perm book).mem_iff

/-- The sorted asks are non-decreasing in priceRaw. -/
theorem asksPairwise (book : RawBook) :
    List.Pairwise (fun a b : UnifiedEntry => a.priceRaw ≤ b.priceRaw) (unifiedAsks book) := by
  have h := List.sorted_mergeSort askLE_trans askLE_total (askCandidates book)
  exact h.imp (fun hab => by simpa [askLE] using hab)

/-- The sorted bids are non-increasing in priceRaw. -/
theorem bidsPairwise (book : RawBook) :
    List.Pairwise (fun a b : UnifiedEntry => b.priceRaw ≤ a.priceRaw) (unifiedBids book) := by
  have h := List.sorted_mergeSort bidLE_trans bidLE_total (bidCandidates book)
  exact h.imp (fun hab => by simpa [bidLE] using hab)

/-!
Claim theorems.
-/

/-- C1: for every RawBook, every NO bid appears among the unified asks with
origin tag "NO bid (= YES ask)" and yesPrice (priceRaw) equal to
1,000,000 minus its original price, and every NO ask appears among the
unified bids with origin "NO ask (= YES bid)" and the complemented price;
the boundary is not special-cased: a NO bid priced 0 yields priceRaw
1,000,000 and a NO ask priced 1,000,000 yields priceRaw 0. -/
theorem no_side_complement (book : RawBook) :
    (∀ e ∈ book.no.bids, ∃ u ∈ (get_orderbook book).unified.asks,
        u.source = "NO bid (= YES ask)" ∧ u.priceRaw = 1000000 - e.price ∧
        u.escrowAppId = e.escrowAppId ∧ u.owner = e.owner) ∧
    (∀ e ∈ book.no.asks, ∃ u ∈ (get_orderbook book).unified.bids,
        u.source = "NO ask (= YES bid)" ∧ u.priceRaw = 1000000 - e.price ∧
        u.escrowAppId = e.escrowAppId ∧ u.owner = e.owner) ∧
    (∀ e ∈ book.no.bids, e.price = 0 → ∃ u ∈ (get_orderbook book).unified.asks,
        u.escrowAppId = e.escrowAppId ∧ u.owner = e.owner ∧ u.priceRaw = 1000000) ∧
    (∀ e ∈ book.no.asks, e.price = 1000000 → ∃ u ∈ (get_orderbook book).unified.bids,
        u.escrowAppId = e.escrowAppId ∧ u.owner = e.owner ∧ u.priceRaw = 0) := by
  have hmemA : ∀ e ∈ book.no.bids,
      toUnified e ("NO bid (= YES ask)") (some (1000000 - e.price)) ∈
        (get_orderbook book).unified.asks := by
    intro e he
    exact mem_unifiedAsks.mpr (List.mem_append_right _ (List.mem_map_of_mem _ he))
  have hmemB : ∀ e ∈ book.no.asks,
      toUnified e ("NO ask (= YES bid)") (some (1000000 - e.price)) ∈
        (get_orderbook book).unified.bids := by
    intro e he
    exact mem_unifiedBids.mpr (List.mem_append_right _ (List.mem_map_of_mem _ he))
  refine ⟨?_, ?_, ?_, ?_⟩
  · intro e he
    exact ⟨_, hmemA e he, rfl, rfl, rfl, rfl⟩
  · intro e he
    exact ⟨_, hmemB e he, rfl, rfl, rfl, rfl⟩
  · intro e he hp
    refine ⟨_, hmemA e he, rfl, rfl, ?_⟩
    show 1000000 - e.price = 1000000
    rw [hp]
    ring
  · intro e he hp
    refine ⟨_, hmemB e he, rfl, rfl, ?_⟩
    show 1000000 - e.price = 0
    rw [hp]
    ring

/-- Witness for C1 at the boundary book: the NO bid priced 0 shows up as a
unified ask with priceRaw 1,000,000, and the NO ask priced 1,000,000 as a
unified bid with priceRaw 0. -/
theorem no_side_complement_witness :
    (∃ u ∈ (get_orderbook bookBoundary).unified.asks,
        u.escrowAppId = eNB.escrowAppId ∧ u.owner = eNB.owner ∧ u.priceRaw = 1000000) ∧
    (∃ u ∈ (get_orderbook bookBoundary).unified.bids,
        u.escrowAppId = eNA.escrowAppId ∧ u.owner = eNA.owner ∧ u.priceRaw = 0) :=
  ⟨(no_side_complement bookBoundary).2.2.1 eNB (by decide) (by decide),
   (no_side_complement bookBoundary).2.2.2 eNA (by decide) (by decide)⟩

/-- C2: for every RawBook, the unified ask count plus the unified bid count
equals the sum of the four raw side lengths, totalOrders equals the same
sum, and each unified side is a permutation of the image of its two raw
sides, so every raw entry maps to exactly one unified entry with none
duplicated or dropped. -/
theorem unification_conserves (book : RawBook) :
    (get_orderbook book).unified.asks.length + (get_orderbook book).unified.bids.length =
      book.yes.bids.length + book.yes.asks.length +
        book.no.bids.length + book.no.asks.length ∧
    (get_orderbook book).totalOrders =
      book.yes.bids.length + book.yes.asks.length +
        book.no.bids.length + book.no.asks.length ∧
    (get_orderbook book).unified.asks.Perm (askCandidates book) ∧
    (get_orderbook book).unified.bids.Perm (bidCandidates book) := by
  refine ⟨?_, rfl, unifiedAsks_perm book, unifiedBids_perm book⟩
  have ha := (unifiedAsks_perm book).length_eq
  have hb := (unifiedBids_perm book).length_eq
  show (unifiedAsks book).length + (unifiedBids book).length = _
  rw [ha, hb]
  simp only [askCandidates, bidCandidates, List.length_append, List.length_map]
  omega

/-- C3: for every RawBook, every YES ask appears among the unified asks with
origin "YES ask" and its price unchanged, and every YES bid among the
unified bids with origin "YES bid" and its price unchanged. -/
theorem yes_side_passthrough (book : RawBook) :
    (∀ e ∈ book.yes.asks, ∃ u ∈ (get_orderbook book).unified.asks,
        u.source = "YES ask" ∧ u.priceRaw = e.price ∧
        u.escrowAppId = e.escrowAppId ∧ u.owner = e.owner) ∧
    (∀ e ∈ book.yes.bids, ∃ u ∈ (get_orderbook book).unified.bids,
        u.source = "YES bid" ∧ u.priceRaw = e.price ∧
        u.escrowAppId = e.escrowAppId ∧ u.owner = e.owner) := by
  constructor
  · intro e he
    exact ⟨toUnified e ("YES ask") none,
      mem_unifiedAsks.mpr (List.mem_append_left _ (List.mem_map_of_mem _ he)),
      rfl, rfl, rfl, rfl⟩
  · intro e he
    exact ⟨toUnified e ("YES bid") none,
      mem_unifiedBids.mpr (List.mem_append_left _ (List.mem_map_of_mem _ he)),
      rfl, rfl, rfl, rfl⟩

/-- Witness for C3 at the worked-example book: its YES ask keeps price
600,000. -/
theorem yes_side_passthrough_witness :
    ∃ u ∈ (get_orderbook exBook).unified.asks,
        u.source = "YES ask" ∧ u.priceRaw = eYA.price ∧
        u.escrowAppId = eYA.escrowAppId ∧ u.owner = eYA.owner :=
  (yes_side_passthrough exBook).1 eYA (by decide)

/-- C5: for every RawBook, the unified asks are non-decreasing and the
unified bids non-increasing in priceRaw, whatever the order of the four raw
input sides. -/
theorem unified_sides_sorted (book : RawBook) :
    List.Pairwise (fun a b : UnifiedEntry => a.priceRaw ≤ b.priceRaw)
      (get_orderbook book).unified.asks ∧
    List.Pairwise (fun a b : UnifiedEntry => b.priceRaw ≤ a.priceRaw)
      (get_orderbook book).unified.bids :=
  ⟨asksPairwise book, bidsPairwise book⟩

/-- Evaluation of the stable sort on a two-element list. -/
theorem mergeSort_pair {α : Type} (le : α → α → Bool) (a b : α) :
    [a, b].mergeSort le = if le a b then [a, b] else [b, a] := by
  simp [List.mergeSort, List.merge]

/-- The formatted spread string always ends in the cent sign, so it never
collides with the sentinel. -/
theorem fmt_ne_sentinel (v : Int × Nat) : toFixed2 v ++ "¢" ≠ "N/A" := by
  intro hcontra
  have hdata := congrArg String.data hcontra
  rw [String.data_append] at hdata
  have hlast := congrArg List.getLast? hdata
  rw [show ("¢" : String).data = ['¢'] from rfl] at hlast
  rw [List.getLast?_concat] at hlast
  rw [show ("N/A" : String).data = ['N', '/', 'A'] from rfl] at hlast
  simp at hlast

/-- C6: the unification is deterministic — equal inputs give equal outputs —
and the tie-break is stable: two entries of equal priceRaw that occur in a
given relative order among the candidates occur in the same relative order
in the sorted output (JS sort is stable since ES2019, modelled by the stable
mergeSort). -/
theorem unify_deterministic (book : RawBook) :
    (∀ book2 : RawBook, book = book2 → get_orderbook book = get_orderbook book2) ∧
    (∀ x y : UnifiedEntry, List.Sublist [x, y] (askCandidates book) →
        x.priceRaw = y.priceRaw → List.Sublist [x, y] (get_orderbook book).unified.asks) ∧
    (∀ x y : UnifiedEntry, List.Sublist [x, y] (bidCandidates book) →
        x.priceRaw = y.priceRaw → List.Sublist [x, y] (get_orderbook book).unified.bids) := by
  refine ⟨fun book2 h => congrArg get_orderbook h, ?_, ?_⟩
  · intro x y hsub hxy
    have hpw : List.Pairwise (fun a b => askLE a b = true) [x, y] := by
      simp [List.pairwise_cons, askLE, hxy]
    exact List.sublist_mergeSort askLE_trans askLE_total hpw hsub
  · intro x y hsub hxy
    have hpw : List.Pairwise (fun a b => bidLE a b = true) [x, y] := by
      simp [List.pairwise_cons, bidLE, hxy]
    exact List.sublist_mergeSort bidLE_trans bidLE_total hpw hsub

/-- Witness for C6: the two equal-priced asks of bookTie keep their input
order in the unified asks. -/
theorem unify_deterministic_witness :
    List.Sublist [toUnified eT1 ("YES ask") none, toUnified eT2 ("YES ask") none]
      (get_orderbook bookTie).unified.asks :=
  (unify_deterministic bookTie).2.1 _ _ (by decide) (by decide)

/-- C7: when both unified sides are nonempty the spread is the head ask's
priceRaw minus the head bid's priceRaw (rendered in hundredths of a cent);
when either side is empty the spread value is absent and the output carries
the sentinel "N/A", which is distinct from the rendering of a zero spread;
the computation is total, so no crash occurs. -/
theorem spread_def_sentinel (book : RawBook) :
    (∀ a ra b rb, (get_orderbook book).unified.asks = a :: ra →
        (get_orderbook book).unified.bids = b :: rb →
        spreadMicro book = some (a.priceRaw - b.priceRaw) ∧
        (get_orderbook book).unified.spread =
          toFixed2 (flRat (a.priceRaw - b.priceRaw) 10000) ++ "¢") ∧
    ((get_orderbook book).unified.asks = [] ∨ (get_orderbook book).unified.bids = [] →
        spreadMicro book = none ∧ (get_orderbook book).unified.spread = "N/A") ∧
    (∀ d : Int, spreadMicro book = some d → (get_orderbook book).unified.spread ≠ "N/A") ∧
    ("N/A" : String) ≠ toFixed2 (flRat 0 10000) ++ "¢" := by
  refine ⟨?_, ?_, ?_, by decide⟩
  · intro a ra b rb ha hb
    have ha2 : unifiedAsks book = a :: ra := ha
    have hb2 : unifiedBids book = b :: rb := hb
    constructor
    · simp [spreadMicro, bestAskOpt, bestBidOpt, ha2, hb2]
    · show spreadStr book = _
      simp [spreadStr, spreadStrOf, ha2, hb2]
  · intro hemp
    have hor : bestAskOpt book = none ∨ bestBidOpt book = none := by
      rcases hemp with hemp | hemp
      · exact Or.inl (by simp [bestAskOpt, show unifiedAsks book = [] from hemp])
      · exact Or.inr (by simp [bestBidOpt, show unifiedBids book = [] from hemp])
    constructor
    · rcases hor with hn | hn
      · simp [spreadMicro, hn]
      · rcases hA : bestAskOpt book with _ | av
        · simp [spreadMicro, hA]
        · simp [spreadMicro, hA, hn]
    · show spreadStr book = _
      rcases hor with hn | hn
      · have hna : (unifiedAsks book).head?.map UnifiedEntry.priceRaw = none := hn
        simp [spreadStr, spreadStrOf, hna]
      · have hbn : (unifiedBids book).head?.map UnifiedEntry.priceRaw = none := hn
        rcases hA : (unifiedAsks book).head?.map UnifiedEntry.priceRaw with _ | av
        · simp [spreadStr, spreadStrOf, hA]
        · simp [spreadStr, spreadStrOf, hA, hbn]
  · intro d hd
    show spreadStr book ≠ "N/A"
    have hA : ∃ av, bestAskOpt book = some av := by
      rcases hA : bestAskOpt book with _ | av
      · simp [spreadMicro, hA] at hd
      · exact ⟨av, rfl⟩
    obtain ⟨av, hA⟩ := hA
    have hB : ∃ bv, bestBidOpt book = some bv := by
      rcases hB : bestBidOpt book with _ | bv
      · simp [spreadMicro, hA, hB] at hd
      · exact ⟨bv, rfl⟩
    obtain ⟨bv, hB⟩ := hB
    have hA2 : (unifiedAsks book).head?.map UnifiedEntry.priceRaw = some av := hA
    have hB2 : (unifiedBids book).head?.map UnifiedEntry.priceRaw = some bv := hB
    simp [spreadStr, spreadStrOf, hA2, hB2]
    exact fmt_ne_sentinel (flRat (av - bv) 10000)

/-- Witness for C7 at the worked-example book: spread 600,000 − 480,000 =
120,000 micro-units, displayed as "12.00¢". -/
theorem spread_def_sentinel_witness :
    spreadMicro exBook = some 120000 ∧
    (get_orderbook exBook).unified.spread = "12.00¢" := by
  have hasks : (get_orderbook exBook).unified.asks =
      toUnified eYA ("YES ask") none ::
        [toUnified eNB2 ("NO bid (= YES ask)") (some (1000000 - eNB2.price))] := by
    show ([toUnified eYA ("YES ask") none,
        toUnified eNB2 ("NO bid (= YES ask)") (some (1000000 - eNB2.price))]).mergeSort askLE = _
    rw [mergeSort_pair]
    simp [askLE, toUnified, eYA, eNB2]
  have hbids : (get_orderbook exBook).unified.bids =
      toUnified eYB ("YES bid") none :: [] := by
    show ([toUnified eYB ("YES bid") none]).mergeSort bidLE = _
    rw [List.mergeSort_singleton]
  obtain ⟨h1, h2⟩ := (spread_def_sentinel exBook).1 _ _ _ _ hasks hbids
  constructor
  · rw [h1]
    decide
  · rw [h2]
    decide

/-- C8: the all-empty book unifies without error to empty asks, empty bids,
the "N/A" spread sentinel and totalOrders 0; a book whose only populated
side is yesAsks yields empty bids, the sentinel spread, and asks that are
exactly the sorted image of yesAsks (nonempty when yesAsks is). -/
theorem empty_one_sided :
    ((get_orderbook emptyBook).unified.asks = [] ∧
     (get_orderbook emptyBook).unified.bids = [] ∧
     (get_orderbook emptyBook).unified.spread = "N/A" ∧
     (get_orderbook emptyBook).totalOrders = 0) ∧
    (∀ book : RawBook, book.yes.bids = [] → book.no.bids = [] → book.no.asks = [] →
        (get_orderbook book).unified.bids = [] ∧
        (get_orderbook book).unified.spread = "N/A" ∧
        (get_orderbook book).unified.asks.Perm
          (book.yes.asks.map (fun e => toUnified e ("YES ask") none)) ∧
        List.Pairwise (fun a b : UnifiedEntry => a.priceRaw ≤ b.priceRaw)
          (get_orderbook book).unified.asks ∧
        (book.yes.asks ≠ [] → (get_orderbook book).unified.asks ≠ [])) := by
  constructor
  · refine ⟨?_, ?_, ?_, ?_⟩ <;>
      simp [get_orderbook, unifiedAsks, unifiedBids, askCandidates, bidCandidates,
        emptyBook, spreadStr, spreadStrOf]
  intro book hyb hnb hna
  have hbids : unifiedBids book = [] := by
    simp [unifiedBids, bidCandidates, hyb, hna]
  have hcand : askCandidates book =
      book.yes.asks.map (fun e => toUnified e ("YES ask") none) := by
    simp [askCandidates, hnb]
  refine ⟨hbids, ?_, ?_, asksPairwise book, ?_⟩
  · show spreadStr book = _
    have hbn : (unifiedBids book).head?.map UnifiedEntry.priceRaw = none := by
      simp [hbids]
    rcases hA : (unifiedAsks book).head?.map UnifiedEntry.priceRaw with _ | av
    · simp [spreadStr, spreadStrOf, hA]
    · simp [spreadStr, spreadStrOf, hA, hbn]
  · have hperm := unifiedAsks_perm book
    rwa [hcand] at hperm
  · intro hne hcontra
    have hlen := (unifiedAsks_perm book).length_eq
    rw [show unifiedAsks book = [] from hcontra, hcand] at hlen
    simp at hlen
    exact hne (List.length_eq_zero.mp hlen.symm)

/-- Witness for C8 at a book populating only yesAsks. -/
theorem empty_one_sided_witness :
    (get_orderbook bookOneSided).unified.bids = [] ∧
    (get_orderbook bookOneSided).unified.spread = "N/A" ∧
    (get_orderbook bookOneSided).unified.asks.Perm
      (bookOneSided.yes.asks.map (fun e => toUnified e ("YES ask") none)) ∧
    List.Pairwise (fun a b : UnifiedEntry => a.priceRaw ≤ b.priceRaw)
      (get_orderbook bookOneSided).unified.asks ∧
    (bookOneSided.yes.asks ≠ [] → (get_orderbook bookOneSided).unified.asks ≠ []) :=
  empty_one_sided.2 bookOneSided rfl rfl rfl

/-- C9: the heap-level rendition of the handler never writes to the raw side
of the store — the four input arrays and every raw entry's fields are intact
after the call, the in-place sorts landing only on the two freshly allocated
arrays — and it produces the same result as the pure unification of the book
read at entry. -/
theorem unify_no_mutation (h : JSHeap) (r : BookRef) :
    (get_orderbookH h r).2.rawArr = h.rawArr ∧
    readBook (get_orderbookH h r).2 r = readBook h r ∧
    (get_orderbookH h r).1 = get_orderbook (readBook h r) := by
  refine ⟨rfl, rfl, ?_⟩
  simp only [get_orderbookH, allocUni, sortUniAt, readBook, get_orderbook,
    unifiedAsks, unifiedBids, spreadStr]
  simp

/-- C10: on a crossed book (best bid above best ask) the unification still
succeeds and the spread is the negative difference bestAsk − bestBid, with
no clamping to zero and no error sentinel. -/
theorem crossed_book_spread (book : RawBook) (a b : UnifiedEntry)
    (ra rb : List UnifiedEntry)
    (ha : (get_orderbook book).unified.asks = a :: ra)
    (hb : (get_orderbook book).unified.bids = b :: rb)
    (hcross : a.priceRaw < b.priceRaw) :
    spreadMicro book = some (a.priceRaw - b.priceRaw) ∧
    a.priceRaw - b.priceRaw < 0 ∧
    (get_orderbook book).unified.spread =
      toFixed2 (flRat (a.priceRaw - b.priceRaw) 10000) ++ "¢" ∧
    (get_orderbook book).unified.spread ≠ "N/A" := by
  have ha2 : unifiedAsks book = a :: ra := ha
  have hb2 : unifiedBids book = b :: rb := hb
  refine ⟨by simp [spreadMicro, bestAskOpt, bestBidOpt, ha2, hb2], by omega, ?_, ?_⟩
  · show spreadStr book = _
    simp [spreadStr, spreadStrOf, ha2, hb2]
  · show spreadStr book ≠ "N/A"
    simp [spreadStr, spreadStrOf, ha2, hb2]
    exact fmt_ne_sentinel (flRat (a.priceRaw - b.priceRaw) 10000)

/-- Witness for C10 at the crossed book: spread 400,000 − 600,000 =
−200,000 micro-units, displayed as "-20.00¢". -/
theorem crossed_book_spread_witness :
    spreadMicro bookCrossed = some (-200000) ∧
    (get_orderbook bookCrossed).unified.spread = "-20.00¢" := by
  have hasks : (get_orderbook bookCrossed).unified.asks =
      toUnified eCA ("YES ask") none :: [] := by
    show ([toUnified eCA ("YES ask") none]).mergeSort askLE = _
    rw [List.mergeSort_singleton]
  have hbids : (get_orderbook bookCrossed).unified.bids =
      toUnified eCB ("YES bid") none :: [] := by
    show ([toUnified eCB ("YES bid") none]).mergeSort bidLE = _
    rw [List.mergeSort_singleton]
  obtain ⟨h1, hneg, h2, hna⟩ :=
    crossed_book_spread bookCrossed _ _ _ _ hasks hbids (by decide)
  constructor
  · rw [h1]
    decide
  · rw [h2]
    decide

/-- Counterexample for C4: two raw books that differ only in a quantity
(2,100,000 vs 2,104,000 micro-shares) produce identical unified outputs,
because quantity leaves the handler only through the `shares` and `total`
strings rounded to hundredths; so a unified entry does not carry the source
quantity through bit-exactly. -/
theorem quantity_not_preserved :
    get_orderbook bookQa = get_orderbook bookQb ∧
    bookQa ≠ bookQb ∧
    bookQa.yes.asks.map RawEntry.quantity ≠ bookQb.yes.asks.map RawEntry.quantity := by
  have hent : toUnified eQa ("YES ask") none = toUnified eQb ("YES ask") none := by decide
  have hask : askCandidates bookQa = askCandidates bookQb := by
    simp only [askCandidates, bookQa, bookQb, List.map, hent]
  have hbid : bidCandidates bookQa = bidCandidates bookQb := rfl
  refine ⟨?_, by decide, by decide⟩
  simp only [get_orderbook, unifiedAsks, unifiedBids, spreadStr, spreadStrOf, hask, hbid]
  rfl

/-- C4 amended: the priceRaw of every unified entry is an integer in
micro-units derived bit-exactly from the source price (pass-through or exact
complement), and escrowAppId and owner are carried unchanged; the entry's
quantity and the spread cross the boundary only as `toFixed(2)` display
strings of double-precision intermediates — `shares` renders the double
quantity / 1e6, `total` the double product priceCents · shares, and the
spread string the double of the exact integer difference bestAsk − bestBid
over 10,000 — so they are rounded to displayed hundredths, not preserved
bit-exactly. -/
theorem numeric_fields_rounded (book : RawBook) :
    (∀ e ∈ book.yes.asks, ∃ u ∈ (get_orderbook book).unified.asks,
        u.priceRaw = e.price ∧ u.shares = toFixed2 (flRat e.quantity 1000000) ∧
        u.total = "$" ++ toFixed2 (jsMul (flRat e.price 1000000) (flRat e.quantity 1000000)) ∧
        u.escrowAppId = e.escrowAppId ∧ u.owner = e.owner) ∧
    (∀ e ∈ book.no.bids, ∃ u ∈ (get_orderbook book).unified.asks,
        u.priceRaw = 1000000 - e.price ∧ u.shares = toFixed2 (flRat e.quantity 1000000) ∧
        u.total = "$" ++ toFixed2 (jsMul (flRat (1000000 - e.price) 1000000) (flRat e.quantity 1000000)) ∧
        u.escrowAppId = e.escrowAppId ∧ u.owner = e.owner) ∧
    (∀ e ∈ book.yes.bids, ∃ u ∈ (get_orderbook book).unified.bids,
        u.priceRaw = e.price ∧ u.shares = toFixed2 (flRat e.quantity 1000000) ∧
        u.total = "$" ++ toFixed2 (jsMul (flRat e.price 1000000) (flRat e.quantity 1000000)) ∧
        u.escrowAppId = e.escrowAppId ∧ u.owner = e.owner) ∧
    (∀ e ∈ book.no.asks, ∃ u ∈ (get_orderbook book).unified.bids,
        u.priceRaw = 1000000 - e.price ∧ u.shares = toFixed2 (flRat e.quantity 1000000) ∧
        u.total = "$" ++ toFixed2 (jsMul (flRat (1000000 - e.price) 1000000) (flRat e.quantity 1000000)) ∧
        u.escrowAppId = e.escrowAppId ∧ u.owner = e.owner) ∧
    (∀ d : Int, spreadMicro book = some d →
        (get_orderbook book).unified.spread = toFixed2 (flRat d 10000) ++ "¢") := by
  refine ⟨?_, ?_, ?_, ?_, ?_⟩
  · intro e he
    exact ⟨toUnified e ("YES ask") none,
      mem_unifiedAsks.mpr (List.mem_append_left _ (List.mem_map_of_mem _ he)),
      rfl, rfl, rfl, rfl, rfl⟩
  · intro e he
    exact ⟨toUnified e ("NO bid (= YES ask)") (some (1000000 - e.price)),
      mem_unifiedAsks.mpr (List.mem_append_right _ (List.mem_map_of_mem _ he)),
      rfl, rfl, rfl, rfl, rfl⟩
  · intro e he
    exact ⟨toUnified e ("YES bid") none,
      mem_unifiedBids.mpr (List.mem_append_left _ (List.mem_map_of_mem _ he)),
      rfl, rfl, rfl, rfl, rfl⟩
  · intro e he
    exact ⟨toUnified e ("NO ask (= YES bid)") (some (1000000 - e.price)),
      mem_unifiedBids.mpr (List.mem_append_right _ (List.mem_map_of_mem _ he)),
      rfl, rfl, rfl, rfl, rfl⟩
  · intro d hd
    show spreadStr book = _
    have hA : ∃ av, bestAskOpt book = some av := by
      rcases hA : bestAskOpt book with _ | av
      · simp [spreadMicro, hA] at hd
      · exact ⟨av, rfl⟩
    obtain ⟨av, hA⟩ := hA
    have hB : ∃ bv, bestBidOpt book = some bv := by
      rcases hB : bestBidOpt book with _ | bv
      · simp [spreadMicro, hA, hB] at hd
      · exact ⟨bv, rfl⟩
    obtain ⟨bv, hB⟩ := hB
    have hd2 : av - bv = d := by
      simp [spreadMicro, hA, hB] at hd
      exact hd
    have hA2 : (unifiedAsks book).head?.map UnifiedEntry.priceRaw = some av := hA
    have hB2 : (unifiedBids book).head?.map UnifiedEntry.priceRaw = some bv := hB
    simp [spreadStr, spreadStrOf, hA2, hB2, hd2]

/-- Witness for the amended C4 at bookQa: the unified entry of eQa keeps the
price and shows the quantity rounded to hundredths of a share. -/
theorem numeric_fields_rounded_witness :
    ∃ u ∈ (get_orderbook bookQa).unified.asks,
        u.priceRaw = eQa.price ∧ u.shares = toFixed2 (flRat eQa.quantity 1000000) ∧
        u.total = "$" ++ toFixed2 (jsMul (flRat eQa.price 1000000) (flRat eQa.quantity 1000000)) ∧
        u.escrowAppId = eQa.escrowAppId ∧ u.owner = eQa.owner :=
  (numeric_fields_rounded bookQa).1 eQa (by decide)
